import Mathlib

/-!
# Skillet multi-skill host and discovery service: a verification development

This file gives a shallow embedding, in Lean 4, of the dynamic composition
layer of the Skillet repository:

* `services/runtime/multi_skill_host.py` — the `MultiSkillHost` class: config
  resolution with auto-discovery fallback (`load_skills_from_config`,
  `create_default_config`), per-descriptor loading (`load_skill`), the
  in-process catalog (`get_catalog`, `get_skill_inventory`) and hot reload
  (`reload_skills`).
* `services/discovery/main.py` — the standalone discovery service: concurrent
  catalog aggregation (`update_skill_catalog`, `fetch_skill_inventory`) and
  the filtered query surface (`get_available_skills`, `search_skills`).

Python dictionaries are modelled as association lists with Python's update
semantics (an existing key keeps its position, a new key is appended);
the filesystem, module import machinery and HTTP calls are modelled as
explicit environments (functions from paths / URLs to outcomes); exceptions
are modelled with `Except` and `Option` exactly where the source catches
them.
-/

namespace Skillet

/-- A raw descriptor entry from the `skills:` list of the YAML configuration,
before any defaulting: each field may be absent.  Mirrors the dicts consumed
by `MultiSkillHost.load_skill` / `load_skills_from_config`. -/
structure Descriptor where
  name : Option String
  path : Option String
  mount : Option String
  enabled : Option Bool
deriving DecidableEq

/-- Models `skill_config.get("name", "unknown")` in `load_skill`. -/
def descName (c : Descriptor) : String := c.name.getD "unknown"

/-- Models `skill_config.get("path", "")` in `load_skill`. -/
def descPath (c : Descriptor) : String := c.path.getD ""

/-- Models `skill_config.get("mount", skill_name)` in `load_skill`. -/
def descMount (c : Descriptor) : String := c.mount.getD (descName c)

/-- Models `skill_config.get("enabled", True)` in `load_skills_from_config`. -/
def descEnabled (c : Descriptor) : Bool := c.enabled.getD true

/-- What happens when `load_skill` tries to turn one descriptor's `path`
into a running FastAPI sub-application.  The three failure constructors are
the three failure exits of the source: the runtime file is missing, the
module import raises, or the imported module has no `app` attribute. -/
inductive LoadOutcome where
  | missingRuntime
  | execError (msg : String)
  | noApp
  | ok
deriving DecidableEq

/-- The loader environment: the outcome of resolving `path` relative to the
host's base path and importing `<base>/<path>/skillet_runtime.py`. -/
def LoadEnv : Type := String → LoadOutcome

/-- The information `load_skill` stores into `self.skills[mount_path]`
(`SkillConfig` in the source; the live module/app objects are opaque). -/
structure SkillInfo where
  name : String
  path : String
  mount_path : String
deriving DecidableEq

/-- Python dict update `d[k] = v`: an existing key keeps its position and
gets the new value, a fresh key is appended at the end. -/
def dictInsert (k : String) (v : α) : List (String × α) → List (String × α)
  | [] => [(k, v)]
  | p :: rest => if p.1 == k then (k, v) :: rest else p :: dictInsert k v rest

/-- Python dict lookup `d[k]` / `k in d`. -/
def dictGet (st : List (String × α)) (k : String) : Option α :=
  (st.find? (fun p => p.1 == k)).map Prod.snd

/-- The mutable state of `MultiSkillHost` that loading touches: the
`self.skills` dict (keyed by mount path) and the sequence of
`self.app.mount(...)` calls that have been issued (FastAPI mounts are
append-only; the source never unmounts). -/
structure HostState where
  skills : List (String × SkillInfo)
  mounts : List String
deriving DecidableEq

/-- Models `MultiSkillHost.load_skill`: resolve the descriptor's defaults,
try to import the runtime module; on success mount it at the mount path and
record it in `self.skills`; every failure is caught (printed) and leaves the
state unchanged — the caller keeps going. -/
def load_skill (env : LoadEnv) (st : HostState) (cfg : Descriptor) : HostState :=
  let skill_name := descName cfg
  let skill_path := descPath cfg
  let mount_path := descMount cfg
  match env skill_path with
  | .ok =>
      { skills := dictInsert mount_path ⟨skill_name, skill_path, mount_path⟩ st.skills,
        mounts := st.mounts ++ ["/skills/" ++ mount_path] }
  | _ => st

/-- Holds iff `load_skill` on this descriptor reaches the success branch. -/
def loadOk (env : LoadEnv) (c : Descriptor) : Bool :=
  match env (descPath c) with
  | .ok => true
  | _ => false

/-- The `for skill_config in skills_config:` loop of
`load_skills_from_config`: enabled descriptors are passed to `load_skill`,
disabled ones are skipped with a message. -/
def load_skills_loop (env : LoadEnv) (st : HostState) : List Descriptor → HostState
  | [] => st
  | c :: rest =>
      load_skills_loop env (if descEnabled c then load_skill env st c else st) rest

/-! ## Text operations

The discovery service compares strings with Python's `str.lower()`,
substring `in`, `split` and `strip`.  These are modelled structurally over
the string's character codes so that every definition evaluates inside the
kernel.  Lowercasing is modelled on the ASCII range, which is the range the
source's data uses. -/

/-- Models `ch.lower()` at the level of code points (ASCII case folding). -/
def lowerCode (c : Char) : Nat :=
  if 65 ≤ c.toNat ∧ c.toNat ≤ 90 then c.toNat + 32 else c.toNat

/-- Models `s.lower()` as the sequence of lowered code points. -/
def lowered (s : String) : List Nat := s.data.map lowerCode

/-- The raw code points of a string (no case folding). -/
def codes (s : String) : List Nat := s.data.map Char.toNat

/-- Does `hay` start with `needle`? -/
def startsWithSeq : List Nat → List Nat → Bool
  | _, [] => true
  | [], _ :: _ => false
  | c :: h, d :: n => c == d && startsWithSeq h n

/-- Python's substring test `needle in hay` on code-point sequences. -/
def containsSeq (needle : List Nat) : List Nat → Bool
  | [] => startsWithSeq [] needle
  | c :: t => startsWithSeq (c :: t) needle || containsSeq needle t

/-- Python's `s.split(sep)` for a one-character separator: every occurrence
splits, empty pieces are kept, `"".split(sep) == [""]`. -/
def splitOnChar (sep : Char) : List Char → List (List Char)
  | [] => [[]]
  | c :: rest =>
      let r := splitOnChar sep rest
      if c == sep then [] :: r
      else
        match r with
        | [] => [[c]]
        | piece :: pieces => (c :: piece) :: pieces

/-- Python's `s.strip()`: drop leading and trailing whitespace. -/
def trimChars (l : List Char) : List Char :=
  ((l.dropWhile Char.isWhitespace).reverse.dropWhile Char.isWhitespace).reverse

/-- Models `url.split("/")[-1]`, used to name the placeholder for an unreachable
skill in the discovery catalog. -/
def lastSegment (url : String) : String :=
  String.mk ((splitOnChar '/' url.data).getLastD [])

/-- Models `skill_name.replace("_", "-")` in `create_default_config` (the pattern
is a single character, so a per-character map is exact). -/
def hyphenate (s : String) : String :=
  String.mk (s.data.map (fun c => if c == '_' then '-' else c))

/-! ## Discovery service: data model

`services/discovery/main.py` stores the catalog as JSON dicts.  A catalog
entry is a dict that may or may not have a `"skill"` sub-dict; every access
in the source goes through `.get` with a default, which the accessors below
reproduce.  `extra` records whether the dict has further keys, which is all
Python's truthiness test `if result:` can observe beyond `skill`. -/

/-- The `endpoints` dict attached to a skill by the aggregators. -/
structure Endpoints where
  inventory : String
  schema : String
  run : String
deriving DecidableEq

/-- The fields of the `"skill"` sub-dict that the core reads.  A missing
field is `none` / the neutral default, matching `.get(k, default)`. -/
structure Skill where
  name : String := ""
  description : String := ""
  category : String := ""
  complexity : String := ""
  use_cases : List String := []
  example_queries : List String := []
  tags : List String := []
  status : Option String := none
  error : Option String := none
  base_url : Option String := none
  mount_path : Option String := none
  endpoints : Option Endpoints := none
deriving DecidableEq

/-- One catalog entry: a JSON object with an optional `"skill"` key. -/
structure Entry where
  skill : Option Skill := none
  extra : Bool := false
deriving DecidableEq

/-- Models `entry.get("skill", default)` with the empty dict as default. -/
def entrySkill (e : Entry) : Skill := e.skill.getD {}

/-- Python truthiness of the entry dict (`if result:`). -/
def entryTruthy (e : Entry) : Bool := e.skill.isSome || e.extra

/-- Models the test `skill.get("status") != "unavailable"` on the `skill` sub-dict of the entry: the filter the
`/skills` and `/search` endpoints apply. -/
def isAvailable (e : Entry) : Bool := !((entrySkill e).status == some "unavailable")

/-! ## Discovery service: concurrent catalog aggregation

`update_skill_catalog` fans out `fetch_skill_inventory` once per configured
URL with `asyncio.gather`.  The network is an environment
`net : String → Except String Entry` (the response's parsed JSON, or the
exception text of a failed / timed-out request).  `gather` is modelled
faithfully to its documented contract: tasks finish in an arbitrary
completion order (a parameter), each completion writes its result into the
slot of its own task index, and the buffer is returned in task order. -/

/-- Models `fetch_skill_inventory`: issue the request; on success, if the JSON has
a `"skill"` key, record `base_url` and the computed `endpoints` on it; any
exception is caught and the coroutine returns `None`. -/
def fetch_skill_inventory (net : String → Except String Entry) (base_url : String) :
    Option Entry :=
  match net base_url with
  | .error _ => none
  | .ok inv =>
      match inv.skill with
      | some s =>
          some { inv with skill := some { s with
                   base_url := some base_url,
                   endpoints := some ⟨base_url ++ "/inventory", base_url ++ "/schema",
                                      base_url ++ "/run"⟩ } }
      | none => some inv

/-- One task completion: write task `i`'s result into slot `i`. -/
def gatherStep (tasks : List α) (buf : List (Option α)) (i : Nat) : List (Option α) :=
  match tasks[i]? with
  | some v => buf.set i (some v)
  | none => buf

/-- Models `asyncio.gather(*tasks)`: run the completions in the given order and
return the result buffer in task order. -/
def gatherBuffer (tasks : List α) (order : List Nat) : List (Option α) :=
  order.foldl (gatherStep tasks) (List.replicate tasks.length none)

/-- The placeholder appended for a URL whose fetch failed.  At this point
`result` is `None` (never an `Exception`: `fetch_skill_inventory` catches
everything), so the recorded error string is the `else` arm `"No response"`. -/
def placeholderEntry (url : String) : Entry :=
  { skill := some { name := "unavailable_skill_" ++ lastSegment url,
                    base_url := some url,
                    status := some "unavailable",
                    error := some "No response" },
    extra := false }

/-- The discovery catalog: the `discovery_service` counters plus the ordered
`skills` list. -/
structure Catalog where
  total_skills : Nat := 0
  available_skills : Nat := 0
  skills : List Entry := []
deriving DecidableEq

/-- One iteration of the `for url, result in zip(skill_urls, results):` loop
of `update_skill_catalog`: a truthy non-exception result is appended as-is,
anything else yields the unavailable placeholder. -/
def catalogStep (cat : Catalog) (p : String × Option (Option Entry)) : Catalog :=
  match p.2 with
  | some (some e) =>
      if entryTruthy e then
        { total_skills := cat.total_skills + 1,
          available_skills := cat.available_skills + 1,
          skills := cat.skills ++ [e] }
      else
        { cat with total_skills := cat.total_skills + 1,
                   skills := cat.skills ++ [placeholderEntry p.1] }
  | _ =>
      { cat with total_skills := cat.total_skills + 1,
                 skills := cat.skills ++ [placeholderEntry p.1] }

/-- Models `update_skill_catalog`: fan out one fetch per configured URL, gather the
results (completion order `order` is arbitrary), and fold the zipped
`(url, result)` pairs into a fresh catalog. -/
def update_skill_catalog (net : String → Except String Entry) (urls : List String)
    (order : List Nat) : Catalog :=
  let tasks := urls.map (fetch_skill_inventory net)
  let results := gatherBuffer tasks order
  (urls.zip results).foldl catalogStep {}

/-- The entry `update_skill_catalog` produces for one URL, in isolation: the
fetched inventory when the fetch succeeded with a truthy dict, otherwise the
unavailable placeholder.  Used to state that the catalog is the per-URL
outcomes in configuration order. -/
def catalogEntryFor (net : String → Except String Entry) (url : String) : Entry :=
  match fetch_skill_inventory net url with
  | some e => if entryTruthy e then e else placeholderEntry url
  | none => placeholderEntry url

/-! ## Discovery service: query surface -/

/-- The `/skills` endpoint body: the catalog entries whose status is not
`"unavailable"`. -/
def get_available_skills (catalog : List Entry) : List Entry :=
  catalog.filter isAvailable

/-- The `query` test of `/search`: case-insensitive substring match against
the entry's name, description, use-cases and example queries. -/
def matchesQuery (e : Entry) (q : String) : Bool :=
  let ql := lowered q
  let s := entrySkill e
  containsSeq ql (lowered s.name) || containsSeq ql (lowered s.description) ||
    s.use_cases.any (fun uc => containsSeq ql (lowered uc)) ||
    s.example_queries.any (fun eq => containsSeq ql (lowered eq))

/-- The `category` test: exact case-insensitive equality. -/
def matchesCategory (e : Entry) (c : String) : Bool :=
  lowered (entrySkill e).category == lowered c

/-- The `complexity` test: exact case-insensitive equality. -/
def matchesComplexity (e : Entry) (c : String) : Bool :=
  lowered (entrySkill e).complexity == lowered c

/-- The `tags` test: split the filter on commas, strip and lower each piece,
and accept the entry if any piece occurs among its lowered tags. -/
def matchesTags (e : Entry) (t : String) : Bool :=
  let tag_list := (splitOnChar ',' t.data).map (fun p => (trimChars p).map lowerCode)
  tag_list.any (fun tag => ((entrySkill e).tags.map lowered).contains tag)

/-- A `/search` parameter is applied only when it is present and truthy
(Python's `if query:` skips both `None` and `""`). -/
def paramActive : Option String → Bool
  | some s => !s.isEmpty
  | none => false

/-- Models `search_skills`: restrict to available entries, then apply each present,
non-empty filter in turn. -/
def search_skills (catalog : List Entry)
    (query category complexity tags : Option String) : List Entry :=
  let available := catalog.filter isAvailable
  let f1 := if paramActive query then
    available.filter (fun e => matchesQuery e (query.getD "")) else available
  let f2 := if paramActive category then
    f1.filter (fun e => matchesCategory e (category.getD "")) else f1
  let f3 := if paramActive complexity then
    f2.filter (fun e => matchesComplexity e (complexity.getD "")) else f2
  if paramActive tags then f3.filter (fun e => matchesTags e (tags.getD "")) else f3

/-! ## Host: in-process catalog (`get_catalog` / `get_skill_inventory`)

`get_skill_inventory` probes the loaded module for an inventory callable.
Its whole body is wrapped in `try/except Exception: return None`, so it
never raises; consequently the `except` branch of `get_catalog`'s loop —
the one that would append an `unavailable` placeholder — cannot run. -/

/-- How a loaded skill module answers the inventory probe: it exposes an
inventory callable whose call returns a JSON dict or raises, or it exposes
no inventory attribute at all (then `get_skill_inventory` synthesizes basic
info). -/
inductive InvBehavior where
  | fnResult (r : Except String Entry)
  | noFn

/-- Models `MultiSkillHost.get_skill_inventory`: returns nothing for an unknown name, the
callable's result when it returns, `None` when it raises (the `except`
swallows it), and the basic-info fallback when no callable exists. -/
def get_skill_inventory (inv : String → InvBehavior)
    (skills : List (String × SkillInfo)) (skill_name : String) : Option Entry :=
  match dictGet skills skill_name with
  | none => none
  | some sk =>
      match inv skill_name with
      | .fnResult (.ok e) => some e
      | .fnResult (.error _) => none
      | .noFn => some { skill := some { name := sk.name,
                                        mount_path := some sk.mount_path,
                                        status := some "loaded" } }

/-- The enhancement `get_catalog` applies to an inventory that has a
`"skill"` key: overwrite `base_url` and `endpoints` with values computed
from the registry key. -/
def hostEnhanceEntry (skill_name : String) (e : Entry) : Entry :=
  match e.skill with
  | some s =>
      { e with skill := some { s with
          base_url := some ("http://localhost:8000/skills/" ++ skill_name),
          endpoints := some ⟨"/skills/" ++ skill_name ++ "/inventory",
                             "/skills/" ++ skill_name ++ "/schema",
                             "/skills/" ++ skill_name ++ "/run"⟩ } }
  | none => e

/-- The host's `/catalog` body: the `runtime_host` header (whose
`total_skills` counts the registry) plus the per-skill loop.  An inventory
that is falsy, lacks a `"skill"` key, or came back `None` appends nothing. -/
structure HostCatalog where
  total_skills : Nat
  skills : List Entry
deriving DecidableEq

/-- Models `MultiSkillHost.get_catalog` (the `/catalog` route handler). -/
def get_catalog (inv : String → InvBehavior)
    (skills : List (String × SkillInfo)) : HostCatalog :=
  { total_skills := skills.length,
    skills := skills.foldl (fun acc p =>
        match get_skill_inventory inv skills p.1 with
        | some e =>
            if entryTruthy e && e.skill.isSome then acc ++ [hostEnhanceEntry p.1 e]
            else acc
        | none => acc) [] }

/-! ## Host: hot reload -/

/-- The JSON the `/reload` route returns: the success body or the
`500`-status error body. -/
inductive ReloadResp where
  | ok (old_skills new_skills : List String) (total_loaded : Nat)
  | err (msg : String)
deriving DecidableEq

/-- Models `MultiSkillHost.reload_skills` (the `/reload` route handler): record the
old keys, **clear `self.skills` first**, then re-run
`load_skills_from_config`; a configuration failure is caught and reported
with status 500, but the registry has already been cleared.  The config
read-and-parse step is abstracted as `parse` (its exception text on
failure); `load_skill` itself never raises. -/
def reload_skills (env : LoadEnv) (parse : Except String (List Descriptor))
    (st : HostState) : HostState × ReloadResp :=
  let old := st.skills.map Prod.fst
  let cleared : HostState := { skills := [], mounts := st.mounts }
  match parse with
  | .error e => (cleared, .err ("Failed to reload skills: " ++ e))
  | .ok cfgs =>
      let st2 := load_skills_loop env cleared cfgs
      (st2, .ok old (st2.skills.map Prod.fst) st2.skills.length)

/-! ## Host: configuration resolution and auto-discovery

`load_skills_from_config` first resolves which descriptor list to use:
the declared config file when present; otherwise a copy of the
`*.example.yaml` file when that exists; otherwise `create_default_config`,
which scans `examples/` and synthesizes, sorts and persists a descriptor
list. -/

/-- The filesystem facts `load_skills_from_config` consults. -/
structure FS where
  configExists : Bool
  exampleExists : Bool
  configDescriptors : List Descriptor
  exampleDescriptors : List Descriptor
  exampleDirs : List String
  hasRuntimeFile : String → Bool

/-- The descriptor `create_default_config` synthesizes for one discovered
package directory. -/
def synthDescriptor (n : String) : Descriptor :=
  { name := some (n ++ "_skill"),
    path := some ("./examples/" ++ n),
    mount := some (hyphenate n),
    enabled := some true }

/-- The comparison `discovered_skills.sort(key=lambda x: x["name"])` sorts
by: code-point order on the `name` field. -/
def nameLe (a b : Descriptor) : Prop := codes (descName a) ≤ codes (descName b)

instance : DecidableRel nameLe := fun a b =>
  inferInstanceAs (Decidable (codes (descName a) ≤ codes (descName b)))

instance : IsTotal Descriptor nameLe :=
  ⟨fun a b => le_total (codes (descName a)) (codes (descName b))⟩

instance : IsTrans Descriptor nameLe :=
  ⟨fun _ _ _ hab hbc => le_trans hab hbc⟩

/-- Models `MultiSkillHost.create_default_config`: scan `examples/` for
subdirectories containing `skillet_runtime.py`, synthesize one enabled
descriptor each, and sort the list by name (Python's `list.sort` is a
stable sort; insertion sort is one). -/
def create_default_config (fs : FS) : List Descriptor :=
  List.insertionSort nameLe ((fs.exampleDirs.filter fs.hasRuntimeFile).map synthDescriptor)

/-- Which branch of the missing-config fallback ran. -/
inductive ConfigOrigin where
  | declared
  | exampleCopy
  | autoDiscovered
deriving DecidableEq

/-- The outcome of config resolution: the descriptor list that will be
loaded, the branch that produced it, and what (if anything) was written to
the config file. -/
structure ResolvedConfig where
  descriptors : List Descriptor
  origin : ConfigOrigin
  persisted : Option (List Descriptor)
deriving DecidableEq

/-- The head of `MultiSkillHost.load_skills_from_config`: use the declared
config when it exists; else copy `*.example.yaml` over it when that exists;
else run auto-discovery and persist its output. -/
def resolve_config_source (fs : FS) : ResolvedConfig :=
  if fs.configExists then ⟨fs.configDescriptors, .declared, none⟩
  else if fs.exampleExists then
    ⟨fs.exampleDescriptors, .exampleCopy, some fs.exampleDescriptors⟩
  else ⟨create_default_config fs, .autoDiscovered, some (create_default_config fs)⟩

/-! ## Bridging lemmas -/

/-- Restates `load_skill` as a conditional on `loadOk`. -/
theorem load_skill_eq (env : LoadEnv) (st : HostState) (cfg : Descriptor) :
    load_skill env st cfg =
      if loadOk env cfg then
        { skills := dictInsert (descMount cfg)
                      ⟨descName cfg, descPath cfg, descMount cfg⟩ st.skills,
          mounts := st.mounts ++ ["/skills/" ++ descMount cfg] }
      else st := by
  unfold load_skill loadOk
  cases h : env (descPath cfg) <;> simp [h]

/-- Inserting a fresh key into a Python dict appends it. -/
theorem dictInsert_append (k : String) (v : α) (st : List (String × α))
    (h : ∀ p ∈ st, p.1 ≠ k) :
    dictInsert k v st = st ++ [(k, v)] := by
  induction st with
  | nil => rfl
  | cons p rest ih =>
    have hne : (p.1 == k) = false := by
      simpa using h p (by simp)
    simp only [dictInsert, hne, if_neg, List.cons_append, Bool.false_eq_true]
    exact congrArg (p :: ·) (ih (fun q hq => h q (by simp [hq])))

/-- The `SkillInfo` record `load_skill` stores for a descriptor. -/
def skillInfoOf (c : Descriptor) : SkillInfo :=
  ⟨descName c, descPath c, descMount c⟩

/-- Every enabled, loadable descriptor contributes exactly one
`app.mount(...)` call, in configuration order; failures contribute none and
stop nothing. -/
theorem load_skills_loop_mounts (env : LoadEnv) :
    ∀ (cfgs : List Descriptor) (st : HostState),
    (load_skills_loop env st cfgs).mounts
      = st.mounts ++ (cfgs.filter (fun c => descEnabled c && loadOk env c)).map
          (fun c => "/skills/" ++ descMount c) := by
  intro cfgs
  induction cfgs with
  | nil => intro st; simp [load_skills_loop]
  | cons c rest ih =>
    intro st
    by_cases he : descEnabled c
    · by_cases hl : loadOk env c
      · simp only [load_skills_loop, he, if_pos, load_skill_eq, hl,
          List.filter_cons, Bool.and_self]
        rw [ih]
        simp [he, hl]
      · simp only [load_skills_loop, he, if_pos, load_skill_eq, hl]
        rw [ih]
        simp [he, hl]
    · simp only [load_skills_loop, he]
      rw [if_neg (by simp [he]), ih]
      simp [he]

/-- With pairwise-distinct mount paths among the enabled, loadable
descriptors (and none colliding with what is already registered), the
registry after the loading loop is exactly the already-registered entries
followed by one entry per enabled loadable descriptor, in order. -/
theorem load_skills_loop_skills (env : LoadEnv) :
    ∀ (cfgs : List Descriptor) (st : HostState),
    (st.skills.map Prod.fst
        ++ (cfgs.filter (fun c => descEnabled c && loadOk env c)).map descMount).Nodup →
    (load_skills_loop env st cfgs).skills
      = st.skills ++ (cfgs.filter (fun c => descEnabled c && loadOk env c)).map
          (fun c => (descMount c, skillInfoOf c)) := by
  intro cfgs
  induction cfgs with
  | nil => intro st _; simp [load_skills_loop]
  | cons c rest ih =>
    intro st hnd
    by_cases he : descEnabled c
    · by_cases hl : loadOk env c
      · have hfc : List.filter (fun c => descEnabled c && loadOk env c) (c :: rest)
            = c :: List.filter (fun c => descEnabled c && loadOk env c) rest := by
          simp [List.filter_cons, he, hl]
        rw [hfc] at hnd
        simp only [List.map_cons] at hnd
        have hdisj := (List.nodup_append.mp hnd).2.2
        have hfresh : ∀ p ∈ st.skills, p.1 ≠ descMount c := by
          intro p hp heq
          have hmem : p.1 ∈ st.skills.map Prod.fst := List.mem_map_of_mem _ hp
          exact hdisj hmem (by simp [heq])
        have hstep : load_skill env st c
            = { skills := st.skills ++ [(descMount c, skillInfoOf c)],
                mounts := st.mounts ++ ["/skills/" ++ descMount c] } := by
          rw [load_skill_eq]
          simp [hl, dictInsert_append _ _ _ hfresh, skillInfoOf]
        simp only [load_skills_loop, he, if_pos, hstep, hfc, List.map_cons]
        rw [ih]
        · simp
        · simpa using hnd
      · have hfc : List.filter (fun c => descEnabled c && loadOk env c) (c :: rest)
            = List.filter (fun c => descEnabled c && loadOk env c) rest := by
          simp [List.filter_cons, he, hl]
        rw [hfc] at hnd
        have hstep : load_skill env st c = st := by rw [load_skill_eq]; simp [hl]
        simp only [load_skills_loop, he, if_pos, hstep, hfc]
        exact ih st hnd
    · have hfc : List.filter (fun c => descEnabled c && loadOk env c) (c :: rest)
          = List.filter (fun c => descEnabled c && loadOk env c) rest := by
        simp [List.filter_cons, he]
      rw [hfc] at hnd
      simp only [load_skills_loop, he]
      rw [if_neg (by simp [he]), hfc]
      exact ih st hnd

/-- Splitting a filter along a second condition splits its length. -/
theorem filter_split_length (p q : α → Bool) (l : List α) :
    (l.filter (fun a => p a && q a)).length + (l.filter (fun a => p a && !q a)).length
      = (l.filter p).length := by
  induction l with
  | nil => rfl
  | cons a t ih =>
    by_cases hp : p a <;> by_cases hq : q a <;>
      simp [List.filter_cons, hp, hq, ih] <;> omega

end Skillet

namespace Skillet

/-- Claim C4 — for every configuration of N enabled descriptors of which
exactly K fail to load (missing runtime file, import error, or no runnable
`app`), the loading loop mounts exactly the N−K loadable handlers and the
failure of one descriptor never aborts loading of the remaining ones: the
mount calls are exactly one per enabled loadable descriptor in
configuration order (so `|mounts| + K = N`), and — when the enabled
loadable descriptors have pairwise-distinct mount paths — the registry
holds exactly those N−K handlers, in order. -/
theorem c4_partial_failure_tolerance (env : LoadEnv) (cfgs : List Descriptor) :
    (load_skills_loop env ⟨[], []⟩ cfgs).mounts
        = (cfgs.filter (fun c => descEnabled c && loadOk env c)).map
            (fun c => "/skills/" ++ descMount c)
    ∧ (load_skills_loop env ⟨[], []⟩ cfgs).mounts.length
        + (cfgs.filter (fun c => descEnabled c && !loadOk env c)).length
        = (cfgs.filter descEnabled).length
    ∧ (((cfgs.filter (fun c => descEnabled c && loadOk env c)).map descMount).Nodup →
        (load_skills_loop env ⟨[], []⟩ cfgs).skills
          = (cfgs.filter (fun c => descEnabled c && loadOk env c)).map
              (fun c => (descMount c, skillInfoOf c))) := by
  refine ⟨?_, ?_, ?_⟩
  · simpa using load_skills_loop_mounts env cfgs ⟨[], []⟩
  · have hm := load_skills_loop_mounts env cfgs ⟨[], []⟩
    simp only [hm]
    simpa using filter_split_length descEnabled (loadOk env) cfgs
  · intro hnd
    simpa using load_skills_loop_skills env cfgs ⟨[], []⟩ (by simpa using hnd)

/-- The spec's concrete scenario for C4: three descriptors, `memory`'s
source deliberately broken. -/
def c4w_env : LoadEnv := fun p =>
  if p == "./examples/anthropic_memory" then .missingRuntime else .ok

/-- The spec's concrete scenario for C4: `time`, `fetch`, `memory`. -/
def c4w_cfgs : List Descriptor :=
  [⟨some "time", some "./examples/anthropic_time", some "time", some true⟩,
   ⟨some "fetch", some "./examples/anthropic_fetch", some "fetch", some true⟩,
   ⟨some "memory", some "./examples/anthropic_memory", some "memory", some true⟩]

/-- Witness for C4: with `memory` broken, exactly `time` and `fetch` are
mounted (2 = 3 − 1) and the registry holds exactly those two. -/
theorem c4_partial_failure_tolerance_witness :
    ((c4w_cfgs.filter (fun c => descEnabled c && loadOk c4w_env c)).map descMount).Nodup
    ∧ (load_skills_loop c4w_env ⟨[], []⟩ c4w_cfgs).mounts = ["/skills/time", "/skills/fetch"]
    ∧ (load_skills_loop c4w_env ⟨[], []⟩ c4w_cfgs).skills
        = [("time", ⟨"time", "./examples/anthropic_time", "time"⟩),
           ("fetch", ⟨"fetch", "./examples/anthropic_fetch", "fetch"⟩)] := by
  refine ⟨by decide, ?_, ?_⟩
  · have h := (c4_partial_failure_tolerance c4w_env c4w_cfgs).1
    rw [h]; decide
  · have h := (c4_partial_failure_tolerance c4w_env c4w_cfgs).2.2 (by decide)
    rw [h]; decide

/-- Claim C10 — a descriptor with no `enabled` field is treated as enabled
(it is handed to `load_skill` like any enabled descriptor); a descriptor
with no `mount` field is mounted under its `name`; and a descriptor with
`enabled: false` is skipped outright, contributing neither a registry entry
nor a mount. -/
theorem c10_descriptor_defaults (env : LoadEnv) (st : HostState)
    (rest : List Descriptor) (n p : String) :
    (load_skills_loop env st (⟨some n, some p, none, none⟩ :: rest)
        = load_skills_loop env (load_skill env st ⟨some n, some p, none, none⟩) rest)
    ∧ (env p = .ok →
        load_skill env st ⟨some n, some p, none, none⟩
          = { skills := dictInsert n ⟨n, p, n⟩ st.skills,
              mounts := st.mounts ++ ["/skills/" ++ n] })
    ∧ (load_skills_loop env st (⟨some n, some p, none, some false⟩ :: rest)
        = load_skills_loop env st rest) := by
  refine ⟨?_, ?_, ?_⟩
  · simp [load_skills_loop, descEnabled]
  · intro h
    unfold load_skill
    simp [descName, descPath, descMount, h]
  · simp [load_skills_loop, descEnabled]

/-- Witness for C10 at a concrete loadable descriptor. -/
theorem c10_descriptor_defaults_witness :
    ((fun _ => LoadOutcome.ok) : LoadEnv) "./examples/anthropic_time" = .ok
    ∧ load_skill (fun _ => LoadOutcome.ok) ⟨[], []⟩
          ⟨some "anthropic_time", some "./examples/anthropic_time", none, none⟩
        = { skills := dictInsert "anthropic_time"
              ⟨"anthropic_time", "./examples/anthropic_time", "anthropic_time"⟩ [],
            mounts := [] ++ ["/skills/" ++ "anthropic_time"] } :=
  ⟨rfl, (c10_descriptor_defaults (fun _ => LoadOutcome.ok) ⟨[], []⟩ []
      "anthropic_time" "./examples/anthropic_time").2.1 rfl⟩

/-- A loader environment in which every descriptor is loadable. -/
def c3_env : LoadEnv := fun _ => .ok

/-- Two enabled descriptors declaring the same mount path `shared`. -/
def c3_d1 : Descriptor :=
  ⟨some "alpha", some "./examples/alpha", some "shared", some true⟩

/-- The second descriptor colliding on `shared`. -/
def c3_d2 : Descriptor :=
  ⟨some "beta", some "./examples/beta", some "shared", some true⟩

/-- Counterexample to claim C3 — a configuration with two enabled
descriptors that resolve to the same `mountPath` is **not** rejected and
raises no load-time error: the loop completes, both descriptors are mounted
onto the app, and the registry silently records only the second one —
`alpha` has been shadowed out of `self.skills`. -/
theorem c3_duplicate_mount_not_rejected :
    load_skills_loop c3_env ⟨[], []⟩ [c3_d1, c3_d2]
      = { skills := [("shared", ⟨"beta", "./examples/beta", "shared"⟩)],
          mounts := ["/skills/shared", "/skills/shared"] }
    ∧ (load_skills_loop c3_env ⟨[], []⟩ [c3_d1, c3_d2]).skills.length = 1 := by
  constructor <;> decide

/-- Claim C3 as amended — two enabled descriptors with the same `mountPath`
are not rejected: loading completes, `app.mount` is called once per
descriptor, and in the registry the later descriptor silently replaces the
earlier one (last writer wins), leaving one entry for the shared path. -/
theorem c3_duplicate_mount_last_writer_wins (env : LoadEnv)
    (a b pa pb m : String) (ha : env pa = .ok) (hb : env pb = .ok) :
    load_skills_loop env ⟨[], []⟩
        [⟨some a, some pa, some m, some true⟩, ⟨some b, some pb, some m, some true⟩]
      = { skills := [(m, ⟨b, pb, m⟩)],
          mounts := ["/skills/" ++ m, "/skills/" ++ m] } := by
  unfold load_skills_loop load_skills_loop load_skills_loop load_skill
  simp [descEnabled, descName, descPath, descMount, ha, hb, dictInsert]

/-- Witness for the amended C3 at concrete descriptors. -/
theorem c3_duplicate_mount_last_writer_wins_witness :
    c3_env "./examples/alpha" = .ok ∧ c3_env "./examples/beta" = .ok
    ∧ load_skills_loop c3_env ⟨[], []⟩
          [⟨some "alpha", some "./examples/alpha", some "shared", some true⟩,
           ⟨some "beta", some "./examples/beta", some "shared", some true⟩]
        = { skills := [("shared", ⟨"beta", "./examples/beta", "shared"⟩)],
            mounts := ["/skills/" ++ "shared", "/skills/" ++ "shared"] } :=
  ⟨rfl, rfl, c3_duplicate_mount_last_writer_wins c3_env
      "alpha" "beta" "./examples/alpha" "./examples/beta" "shared" rfl rfl⟩

/-- A host registry with two loaded skills, keyed by mount path. -/
def c1_skills : List (String × SkillInfo) :=
  [("anthropic-time",
      ⟨"anthropic_time_skill", "./examples/anthropic_time", "anthropic-time"⟩),
   ("anthropic-fetch",
      ⟨"anthropic_fetch_skill", "./examples/anthropic_fetch", "anthropic-fetch"⟩)]

/-- The `anthropic-time` module's inventory callable raises; the other
skill answers the fallback probe normally. -/
def c1_inv : String → InvBehavior := fun k =>
  if k == "anthropic-time" then .fnResult (.error "inventory raised RuntimeError")
  else .noFn

/-- Claim C1, evaluated at its failing input — with two registered handlers
of which `anthropic-time`'s inventory call raises, the host `/catalog` body
reports `total_skills = 2` but contains a single entry, and no entry refers
to the failed handler, carries `unavailable`, or carries any error text:
`get_skill_inventory` swallows the exception and returns `None`, and
`get_catalog` appends nothing for a `None` inventory (its
placeholder-appending `except` branch is unreachable), so the handler is
dropped from the catalog instead of appearing as `unavailable`. -/
theorem c1_host_catalog_drops_failed_inventory :
    (get_catalog c1_inv c1_skills).total_skills = 2
    ∧ (get_catalog c1_inv c1_skills).skills.length = 1
    ∧ (∀ e ∈ (get_catalog c1_inv c1_skills).skills,
        (entrySkill e).name ≠ "anthropic_time_skill"
        ∧ (entrySkill e).status ≠ some "unavailable"
        ∧ (entrySkill e).error = none) := by
  refine ⟨rfl, rfl, ?_⟩
  decide

/-- The host state before a reload: one skill serving. -/
def c2_prior : HostState :=
  { skills := [("anthropic-time",
        ⟨"anthropic_time_skill", "./examples/anthropic_time", "anthropic-time"⟩)],
    mounts := ["/skills/anthropic-time"] }

/-- Claim C2, evaluated at its failing input — `/reload` against a config
whose read/parse raises: the handler catches the error and reports it with
status 500, but because `self.skills.clear()` ran before the re-load, the
previously-serving skill registry is empty afterwards, not left unchanged;
the router's mount table for lookups (`self.skills`) is empty even though a
generation was serving before. -/
theorem c2_failed_reload_clears_registry :
    (reload_skills (fun _ => .ok) (.error "yaml parse error") c2_prior).1.skills = []
    ∧ (reload_skills (fun _ => .ok) (.error "yaml parse error") c2_prior).2
        = .err ("Failed to reload skills: yaml parse error")
    ∧ c2_prior.skills ≠ [] := by
  refine ⟨rfl, rfl, ?_⟩
  decide

/-- Claim C7 as amended — `/search` first discards entries whose status is
`"unavailable"` and only then filters: an entry is in the result iff it is
an available entry of the catalog that passes every present, non-empty
filter (query: case-insensitive substring on name / description /
use-cases / example-queries; category and complexity: case-insensitive
equality; tags: at least one comma-separated tag among the entry's tags);
the filters compose conjunctively. -/
theorem c7_search_characterization (catalog : List Entry)
    (query category complexity tags : Option String) (e : Entry) :
    e ∈ search_skills catalog query category complexity tags ↔
      e ∈ catalog ∧ isAvailable e = true
      ∧ (paramActive query = true → matchesQuery e (query.getD "") = true)
      ∧ (paramActive category = true → matchesCategory e (category.getD "") = true)
      ∧ (paramActive complexity = true → matchesComplexity e (complexity.getD "") = true)
      ∧ (paramActive tags = true → matchesTags e (tags.getD "") = true) := by
  unfold search_skills
  cases hq : paramActive query <;> cases hc : paramActive category <;>
    cases hx : paramActive complexity <;> cases ht : paramActive tags <;>
    simp [List.mem_filter, and_assoc] <;> tauto

/-- A network in which every fetch fails. -/
def c7_net : String → Except String Entry := fun _ => .error "connection refused"

/-- One configured skill URL whose last path segment is `time`. -/
def c7_urls : List String := ["http://localhost:8001/time"]

/-- The catalog the discovery service builds over `c7_urls` when the fetch
fails: a single unavailable placeholder named `unavailable_skill_time`. -/
def c7_catalog : Catalog := update_skill_catalog c7_net c7_urls [0]

/-- Counterexample to claim C7 — a catalog produced by the aggregator whose
single entry's name contains `time` (case-insensitively), yet
`search(query="time")` returns no entries: the entry is an unavailable
placeholder and `/search` discards unavailable entries before matching, so
the result is not "exactly the entries whose fields contain the query". -/
theorem c7_search_misses_matching_unavailable_entry :
    c7_catalog.skills = [placeholderEntry "http://localhost:8001/time"]
    ∧ matchesQuery (placeholderEntry "http://localhost:8001/time") "time" = true
    ∧ search_skills c7_catalog.skills (some "time") none none none = [] := by
  refine ⟨rfl, by decide, rfl⟩

/-- An ordinary available catalog entry mentioning `time`. -/
def c9w_avail : Entry :=
  { skill := some { name := "anthropic_time",
                    description := "Current time lookup",
                    use_cases := ["time lookup"] },
    extra := false }

/-- Witness for the amended C7: an available matching entry is returned by
`search(query="time")`. -/
theorem c7_search_characterization_witness :
    c9w_avail ∈ search_skills [c9w_avail] (some "time") none none none :=
  (c7_search_characterization [c9w_avail] (some "time") none none none c9w_avail).mpr
    ⟨by decide, by decide, fun _ => by decide, fun h => absurd h (by decide),
     fun h => absurd h (by decide), fun h => absurd h (by decide)⟩

/-- Claim C9 — `/skills` serves exactly the catalog entries whose status is
not `"unavailable"` (the full catalog minus exactly the unavailable
placeholders, which `/catalog` still serves in full), and every `/search`
result is drawn from that same available subset. -/
theorem c9_available_filter_characterization (catalog : List Entry)
    (query category complexity tags : Option String) :
    (∀ e, e ∈ get_available_skills catalog ↔ e ∈ catalog ∧ isAvailable e = true)
    ∧ (∀ e, e ∈ search_skills catalog query category complexity tags →
        e ∈ get_available_skills catalog) := by
  constructor
  · intro e
    simp [get_available_skills, List.mem_filter]
  · intro e
    unfold search_skills get_available_skills
    split_ifs <;> intro he <;> solve_by_elim [List.mem_of_mem_filter]

/-- Witness for C9: a concrete search result that is indeed among the
available entries. -/
theorem c9_available_filter_characterization_witness :
    c9w_avail ∈ search_skills [c9w_avail, placeholderEntry "http://localhost:8002"]
        (some "time") none none none
    ∧ c9w_avail ∈ get_available_skills
        [c9w_avail, placeholderEntry "http://localhost:8002"] :=
  have hmem : c9w_avail ∈ search_skills
      [c9w_avail, placeholderEntry "http://localhost:8002"]
      (some "time") none none none := by decide
  ⟨hmem, (c9_available_filter_characterization
      [c9w_avail, placeholderEntry "http://localhost:8002"]
      (some "time") none none none).2 c9w_avail hmem⟩

/-- Each slot of the gather buffer holds its own task's result once that
task's index has completed, whatever the completion order so far. -/
theorem gatherBuffer_foldl_getElem? (tasks : List α) :
    ∀ (order : List Nat) (buf : List (Option α)) (i : Nat),
    buf.length = tasks.length →
    (order.foldl (gatherStep tasks) buf)[i]?
      = if i ∈ order ∧ i < tasks.length then Option.map some tasks[i]?
        else buf[i]? := by
  intro order
  induction order with
  | nil =>
    intro buf i _
    simp
  | cons j rest ih =>
    intro buf i h
    have hlen : (gatherStep tasks buf j).length = tasks.length := by
      unfold gatherStep
      cases tasks[j]? <;> simp [h]
    rw [List.foldl_cons, ih (gatherStep tasks buf j) i hlen]
    by_cases hmem : i ∈ rest ∧ i < tasks.length
    · rw [if_pos hmem, if_pos ⟨List.mem_cons_of_mem j hmem.1, hmem.2⟩]
    · rw [if_neg hmem]
      by_cases hij : i = j
      · subst hij
        by_cases hi : i < tasks.length
        · have hv : tasks[i]? = some tasks[i] := List.getElem?_eq_getElem hi
          rw [if_pos ⟨List.mem_cons_self i rest, hi⟩]
          unfold gatherStep
          rw [hv, List.getElem?_set_eq_of_lt _ (h ▸ hi)]
          rfl
        · have hv : tasks[i]? = none := List.getElem?_eq_none (by omega)
          rw [if_neg (fun hcon => hi hcon.2)]
          unfold gatherStep
          rw [hv]
      · have hcond : ¬ (i ∈ j :: rest ∧ i < tasks.length) := by
          intro hcon
          rcases List.mem_cons.mp hcon.1 with h1 | h1
          · exact hij h1
          · exact hmem ⟨h1, hcon.2⟩
        rw [if_neg hcond]
        unfold gatherStep
        cases tasks[j]? with
        | none => rfl
        | some v => exact List.getElem?_set_ne (fun h => hij h.symm)

/-- When every task index completes exactly once (the completion order is a
permutation of the task indices), the gathered buffer is the task results
in task order — `asyncio.gather`'s contract, independent of completion
order. -/
theorem gatherBuffer_perm (tasks : List α) (order : List Nat)
    (h : order.Perm (List.range tasks.length)) :
    gatherBuffer tasks order = tasks.map some := by
  apply List.ext_getElem?
  intro i
  rw [gatherBuffer, gatherBuffer_foldl_getElem? tasks order _ i (by simp)]
  have hmem : i ∈ order ↔ i < tasks.length := by
    rw [h.mem_iff, List.mem_range]
  by_cases hi : i < tasks.length
  · rw [if_pos ⟨hmem.mpr hi, hi⟩, List.getElem?_map]
  · have hv : tasks[i]? = none := List.getElem?_eq_none (by omega)
    rw [if_neg (fun hcon => hi hcon.2), List.getElem?_replicate,
      if_neg hi, List.getElem?_map, hv]
    rfl

/-- Folding the catalog loop over per-URL outcomes appends one entry per
URL, in URL order. -/
theorem catalog_foldl_characterization (net : String → Except String Entry) :
    ∀ (urls : List String) (cat : Catalog),
    ((urls.map (fun u => (u, some (fetch_skill_inventory net u)))).foldl
        catalogStep cat).skills
      = cat.skills ++ urls.map (catalogEntryFor net) := by
  intro urls
  induction urls with
  | nil => intro cat; simp
  | cons u rest ih =>
    intro cat
    rw [List.map_cons, List.foldl_cons, ih]
    have hstep : (catalogStep cat (u, some (fetch_skill_inventory net u))).skills
        = cat.skills ++ [catalogEntryFor net u] := by
      unfold catalogStep catalogEntryFor
      cases fetch_skill_inventory net u with
      | none => rfl
      | some e =>
        by_cases ht : entryTruthy e <;> simp [ht]
    rw [hstep]
    simp

/-- Zipping a list with its own image pairs each element with its image. -/
theorem zip_map_self (g : α → β) : ∀ l : List α,
    l.zip (l.map g) = l.map (fun a => (a, g a))
  | [] => rfl
  | a :: t => by simp [zip_map_self g t]

/-- Under a complete completion order, `update_skill_catalog` equals the
canonical catalog built from the per-URL outcomes in URL order. -/
theorem update_skill_catalog_canonical (net : String → Except String Entry)
    (urls : List String) (order : List Nat)
    (h : order.Perm (List.range urls.length)) :
    update_skill_catalog net urls order
      = (urls.map (fun u => (u, some (fetch_skill_inventory net u)))).foldl
          catalogStep {} := by
  have h0 : update_skill_catalog net urls order
      = (urls.zip (gatherBuffer (urls.map (fetch_skill_inventory net)) order)).foldl
          catalogStep {} := rfl
  rw [h0, gatherBuffer_perm _ _ (by simpa using h), List.map_map, zip_map_self]
  simp [Function.comp]

/-- Claim C6 — the order of entries in the aggregated catalog equals the
order in which the skill URLs were configured, independent of the order in
which the concurrent per-URL fetches complete: any two complete completion
orders yield the same catalog, whose `skills` list is the per-URL outcome
list in configuration order. -/
theorem c6_catalog_order_matches_configuration (net : String → Except String Entry)
    (urls : List String) (order₁ order₂ : List Nat)
    (h₁ : order₁.Perm (List.range urls.length))
    (h₂ : order₂.Perm (List.range urls.length)) :
    update_skill_catalog net urls order₁ = update_skill_catalog net urls order₂
    ∧ (update_skill_catalog net urls order₁).skills = urls.map (catalogEntryFor net) := by
  constructor
  · rw [update_skill_catalog_canonical net urls order₁ h₁,
      update_skill_catalog_canonical net urls order₂ h₂]
  · rw [update_skill_catalog_canonical net urls order₁ h₁,
      catalog_foldl_characterization net urls]
    rfl

/-- A two-skill network for the C6 witness: the first URL answers, the
second fails. -/
def c6w_net : String → Except String Entry := fun u =>
  if u == "http://localhost:8001" then
    .ok { skill := some { name := "anthropic_time" }, extra := false }
  else .error "timeout"

/-- Witness for C6: over two URLs, the completion orders `[0,1]` and
`[1,0]` give the same catalog, and its entries follow the URL order. -/
theorem c6_catalog_order_matches_configuration_witness :
    ([0, 1] : List Nat).Perm (List.range 2)
    ∧ ([1, 0] : List Nat).Perm (List.range 2)
    ∧ update_skill_catalog c6w_net ["http://localhost:8001", "http://localhost:8002"] [0, 1]
        = update_skill_catalog c6w_net ["http://localhost:8001", "http://localhost:8002"] [1, 0]
    ∧ (update_skill_catalog c6w_net ["http://localhost:8001", "http://localhost:8002"] [0, 1]).skills
        = ["http://localhost:8001", "http://localhost:8002"].map (catalogEntryFor c6w_net) :=
  ⟨by decide, by decide,
   (c6_catalog_order_matches_configuration c6w_net
      ["http://localhost:8001", "http://localhost:8002"] [0, 1] [1, 0]
      (by decide) (by decide)).1,
   (c6_catalog_order_matches_configuration c6w_net
      ["http://localhost:8001", "http://localhost:8002"] [0, 1] [1, 0]
      (by decide) (by decide)).2⟩

/-- A filesystem in which the declared config is absent but a
`*.example.yaml` file exists, containing an empty skill list. -/
def c8_fs : FS :=
  { configExists := false
    exampleExists := true
    configDescriptors := []
    exampleDescriptors := []
    exampleDirs := ["anthropic_time"]
    hasRuntimeFile := fun _ => true }

/-- Counterexample to claim C8 — when the declared configuration source is
absent, `load_skills_from_config` does **not** necessarily fall back to
auto-discovery: if the `*.example.yaml` file exists it is copied and used
instead, even though the examples directory holds a discoverable skill
package; the loaded descriptor list is the example file's contents, not
the synthesized one. -/
theorem c8_absent_config_uses_example_not_discovery :
    c8_fs.configExists = false
    ∧ (resolve_config_source c8_fs).origin = .exampleCopy
    ∧ create_default_config c8_fs = [synthDescriptor "anthropic_time"]
    ∧ (resolve_config_source c8_fs).descriptors ≠ create_default_config c8_fs := by
  refine ⟨rfl, rfl, rfl, ?_⟩
  decide

/-- Claim C8 as amended — when the declared configuration source is absent
**and no example configuration file exists either**, loading falls back to
auto-discovery: it synthesizes exactly one enabled descriptor per
discovered handler package (a subdirectory of `examples/` containing
`skillet_runtime.py`), sorts the synthesized list by name, and persists it
to the configuration file. -/
theorem c8_auto_discovery_when_no_config_and_no_example (fs : FS)
    (h1 : fs.configExists = false) (h2 : fs.exampleExists = false) :
    resolve_config_source fs
        = ⟨create_default_config fs, .autoDiscovered, some (create_default_config fs)⟩
    ∧ (create_default_config fs).Perm
        ((fs.exampleDirs.filter fs.hasRuntimeFile).map synthDescriptor)
    ∧ List.Sorted nameLe (create_default_config fs)
    ∧ (∀ d ∈ create_default_config fs, d.enabled = some true ∧ descEnabled d = true)
    ∧ (create_default_config fs).length
        = (fs.exampleDirs.filter fs.hasRuntimeFile).length := by
  refine ⟨by simp [resolve_config_source, h1, h2], ?_, ?_, ?_, ?_⟩
  · exact List.perm_insertionSort nameLe _
  · exact List.sorted_insertionSort nameLe _
  · intro d hd
    have hmem := (List.perm_insertionSort nameLe
      ((fs.exampleDirs.filter fs.hasRuntimeFile).map synthDescriptor)).mem_iff.mp hd
    rcases List.mem_map.mp hmem with ⟨n, _, rfl⟩
    exact ⟨rfl, rfl⟩
  · have h := (List.perm_insertionSort nameLe
      ((fs.exampleDirs.filter fs.hasRuntimeFile).map synthDescriptor)).length_eq
    simp only [create_default_config, h, List.length_map]

/-- A filesystem with neither a config nor an example config, for the C8
witness. -/
def c8w_fs : FS :=
  { configExists := false
    exampleExists := false
    configDescriptors := []
    exampleDescriptors := []
    exampleDirs := ["anthropic_time", "anthropic_fetch"]
    hasRuntimeFile := fun _ => true }

/-- Witness for the amended C8: auto-discovery runs, synthesizes two
enabled descriptors, sorts them by name and persists them. -/
theorem c8_auto_discovery_when_no_config_and_no_example_witness :
    c8w_fs.configExists = false ∧ c8w_fs.exampleExists = false
    ∧ resolve_config_source c8w_fs
        = ⟨create_default_config c8w_fs, .autoDiscovered,
           some (create_default_config c8w_fs)⟩
    ∧ List.Sorted nameLe (create_default_config c8w_fs)
    ∧ (create_default_config c8w_fs).length
        = (c8w_fs.exampleDirs.filter c8w_fs.hasRuntimeFile).length :=
  have h := c8_auto_discovery_when_no_config_and_no_example c8w_fs rfl rfl
  ⟨rfl, rfl, h.1, h.2.2.1, h.2.2.2.2⟩

/-- In the discovery service — in contrast to the runtime host's
`get_catalog` — the aggregator never drops a configured handler: under a
complete completion order the catalog carries exactly one entry per
configured URL, whatever the per-URL outcomes. -/
theorem update_skill_catalog_complete (net : String → Except String Entry)
    (urls : List String) (order : List Nat)
    (h : order.Perm (List.range urls.length)) :
    (update_skill_catalog net urls order).skills.length = urls.length := by
  rw [update_skill_catalog_canonical net urls order h,
    catalog_foldl_characterization net urls]
  simp

end Skillet
